import Mathlib

/-!
Verification of the classification core of the Bajaj-Hack repository
(`src/app.py`): the `process_array` routine and the `/bfhl` endpoint
around it.  Python strings are modelled as Lean `String` (lists of
characters); machine behaviour that matters (CPython `str.isdigit`,
`str.replace`, `int(float(_))`, `%`, truthiness, `in`, subscription)
is embedded explicitly below, each definition translated from the
corresponding source construct.
-/

/-- Python `str.isdigit()` for the tokens reaching it here: true exactly
when the string is nonempty and every character is an ASCII digit.
(CPython also accepts non-ASCII unicode digits; no claim involves one.) -/
def pyIsDigit (s : String) : Bool :=
  !s.data.isEmpty && s.data.all Char.isDigit

/-- `item_str.replace('-', '').replace('.', '')` from app.py line 24:
removes every `'-'` and every `'.'`, wherever it occurs. -/
def stripDashDot (s : String) : String :=
  String.mk (s.data.filter (fun c => !(c == '-' || c == '.')))

/-- The numeric-detection check of app.py line 24:
`item_str.replace('-', '').replace('.', '').isdigit()`. -/
def numericCheck (s : String) : Bool :=
  pyIsDigit (stripDashDot s)

/-- The alphabetic check of app.py line 32, `re.match(r'^[a-zA-Z]+$', s)`:
one or more ASCII letters; the `$` anchor also matches just before a
single trailing newline, which the embedding reproduces. -/
def alphaMatch (s : String) : Bool :=
  let cs :=
    match s.data.getLast? with
    | some c => if c == '\n' then s.data.dropLast else s.data
    | Option.none => s.data
  !cs.isEmpty && cs.all Char.isAlpha

/-- Value of a list of ASCII-digit characters read in base 10. -/
def digitsToNat (cs : List Char) : Nat :=
  cs.foldl (fun a c => a * 10 + (c.toNat - 48)) 0

/-- `int(float(s))` from app.py line 25, for the strings the numeric check
lets through (strings over digits, `'-'` and `'.'`): an optional single
leading sign, then digits with at most one `'.'` and at least one digit;
the value is the parsed decimal truncated toward zero, `none` when CPython's
`float()` raises `ValueError`.  (Exponents, `inf`/`nan`, whitespace and
underscores cannot pass the check on line 24, so they never reach this
conversion; IEEE-754 rounding of the double, which can move the truncated
value only for magnitudes near 2^53 or fractional parts of ~17 nines, is
modelled as exact decimal truncation.) -/
def pyIntFloat (s : String) : Option Int :=
  let (neg, cs) :=
    match s.data with
    | '-' :: rest => (true, rest)
    | '+' :: rest => (false, rest)
    | cs => (false, cs)
  let intPart := cs.takeWhile Char.isDigit
  let rest := cs.dropWhile Char.isDigit
  let ok :=
    match rest with
    | [] => !intPart.isEmpty
    | '.' :: frac => frac.all Char.isDigit && (!intPart.isEmpty || !frac.isEmpty)
    | _ => false
  if ok then
    let n := digitsToNat intPart
    some (if neg then -(n : Int) else (n : Int))
  else Option.none

/-- Python `s.upper()` for the tokens reaching it here (ASCII): uppercase
every letter, leave other characters alone. -/
def strUpper (s : String) : String :=
  String.mk (s.data.map Char.toUpper)

/-- CPython `repr` of a string, as it appears in `ValueError` messages:
quoted with `'` (with `"` when the string holds a `'` and no `"`), with
backslashes, quotes and common control characters escaped. -/
def pyEscapeChar (q : Char) (c : Char) : String :=
  if c == '\\' then "\\\\"
  else if c == q then String.mk ['\\', q]
  else if c == '\n' then "\\n"
  else if c == '\t' then "\\t"
  else if c == '\r' then "\\r"
  else String.mk [c]

/-- See `pyEscapeChar`. -/
def pyReprStr (s : String) : String :=
  let q : Char := if s.data.contains '\'' && !s.data.contains '"' then '"' else '\''
  String.mk [q] ++ String.join (s.data.map (pyEscapeChar q)) ++ String.mk [q]

/-- The loop state of `process_array` (app.py lines 13-18): the four buckets,
the running sum, and the retained original-case alphabetic tokens. -/
structure LoopState where
  odd_numbers : List String
  even_numbers : List String
  alphabets : List String
  special_characters : List String
  numbers_sum : Int
  alphabet_strings : List String
deriving Repr, DecidableEq

/-- The initial loop state (app.py lines 13-18). -/
def initState : LoopState := ⟨[], [], [], [], 0, []⟩

/-- One iteration of the loop of app.py lines 20-37 on an already
stringified token: numeric check first, then the alphabetic regex, else the
special bucket; a numeric token whose `float()` conversion raises yields the
`ValueError` message that the enclosing handler will wrap. -/
def processItem (st : LoopState) (item_str : String) : Except String LoopState :=
  if numericCheck item_str then
    match pyIntFloat item_str with
    | some num =>
      let numStr := toString num
      let st' :=
        if num % 2 == 0 then { st with even_numbers := st.even_numbers ++ [numStr] }
        else { st with odd_numbers := st.odd_numbers ++ [numStr] }
      Except.ok { st' with numbers_sum := st'.numbers_sum + num }
    | Option.none =>
      Except.error ("could not convert string to float: " ++ pyReprStr item_str)
  else if alphaMatch item_str then
    Except.ok { st with alphabets := st.alphabets ++ [strUpper item_str],
                        alphabet_strings := st.alphabet_strings ++ [item_str] }
  else
    Except.ok { st with special_characters := st.special_characters ++ [item_str] }

/-- The loop of app.py lines 20-37 over the whole token list; an exception
aborts the loop at the failing token. -/
def runLoop (st : LoopState) : List String → Except String LoopState
  | [] => Except.ok st
  | item :: rest =>
    match processItem st item with
    | Except.error e => Except.error e
    | Except.ok st' => runLoop st' rest

/-- The alternating-caps pass of app.py lines 47-51, carrying the running
character index: even index uppercased, odd index lowercased. -/
def alternatingCaps : Nat → List Char → List Char
  | _, [] => []
  | i, c :: cs =>
    (if i % 2 == 0 then c.toUpper else c.toLower) :: alternatingCaps (i + 1) cs

/-- Python `''.join(strings)`. -/
def strJoin : List String → String
  | [] => ""
  | s :: rest => s ++ strJoin rest

/-- The concat-string construction of app.py lines 40-51: empty when no
alphabetic token was retained, else the joined retained tokens reversed
character-by-character and run through the alternating-caps pass. -/
def buildConcat (alphabet_strings : List String) : String :=
  if alphabet_strings.isEmpty then ""
  else String.mk (alternatingCaps 0 (strJoin alphabet_strings).data.reverse)

/-- The record `process_array` returns (app.py lines 53-60). -/
structure BfhlResult where
  odd_numbers : List String
  even_numbers : List String
  alphabets : List String
  special_characters : List String
  sum : String
  concat_string : String
deriving Repr, DecidableEq

/-- `process_array` of app.py lines 8-62 on the stringified tokens: run the
classification loop, then assemble the record, the sum rendered in decimal;
any exception is re-raised wrapped as `Error processing array: ...` and no
record is returned. -/
def process_array (data_array : List String) : Except String BfhlResult :=
  match runLoop initState data_array with
  | Except.error e => Except.error ("Error processing array: " ++ e)
  | Except.ok st =>
    Except.ok
      { odd_numbers := st.odd_numbers
        even_numbers := st.even_numbers
        alphabets := st.alphabets
        special_characters := st.special_characters
        sum := toString st.numbers_sum
        concat_string := buildConcat st.alphabet_strings }

/-- A Python value as Flask's JSON parsing produces it: `None`, booleans,
numbers (modelled as integers; no claim involves a float element), strings,
lists and dicts. -/
inductive PyVal where
  | pynone : PyVal
  | bool (b : Bool) : PyVal
  | int (n : Int) : PyVal
  | str (s : String) : PyVal
  | list (xs : List PyVal) : PyVal
  | dict (fields : List (String × PyVal)) : PyVal

mutual

/-- CPython `repr` of a parsed-JSON value (what `str` delegates to for
non-string values, and what containers use for their elements). -/
def pyRepr : PyVal → String
  | PyVal.pynone => "None"
  | PyVal.bool true => "True"
  | PyVal.bool false => "False"
  | PyVal.int n => toString n
  | PyVal.str s => pyReprStr s
  | PyVal.list xs => "[" ++ pyReprSeq xs ++ "]"
  | PyVal.dict fs => "\x7b" ++ pyReprFields fs ++ "\x7d"

/-- Comma-separated `repr`s of a list's elements. -/
def pyReprSeq : List PyVal → String
  | [] => ""
  | [x] => pyRepr x
  | x :: y :: xs => pyRepr x ++ ", " ++ pyReprSeq (y :: xs)

/-- Comma-separated `key: value` `repr`s of a dict's items. -/
def pyReprFields : List (String × PyVal) → String
  | [] => ""
  | [(k, v)] => pyReprStr k ++ ": " ++ pyRepr v
  | (k, v) :: f :: fs => pyReprStr k ++ ": " ++ pyRepr v ++ ", " ++ pyReprFields (f :: fs)

end

/-- `str(item)` from app.py line 21: the string itself for a string, the
`repr`-style rendering for every other value (`True`, `False`, `None`,
decimal integers, bracketed containers). -/
def pyStr : PyVal → String
  | PyVal.str s => s
  | v => pyRepr v

/-- `process_array` as the endpoint calls it, on the parsed JSON elements:
each item is stringified with `str()` at the top of the loop (app.py
line 21), so running the string version on the stringified list is the
same computation. -/
def process_array_py (data_array : List PyVal) : Except String BfhlResult :=
  process_array (data_array.map pyStr)

/-- Python truthiness (`not request_data`, app.py line 73): `None`, `False`,
zero, and empty strings/lists/dicts are falsy. -/
def pyFalsy : PyVal → Bool
  | PyVal.pynone => true
  | PyVal.bool b => !b
  | PyVal.int n => n == 0
  | PyVal.str s => s.data.isEmpty
  | PyVal.list xs => xs.isEmpty
  | PyVal.dict fs => fs.isEmpty

/-- Is the character list `n` an initial segment of `h`? -/
def charsLeading : List Char → List Char → Bool
  | [], _ => true
  | _ :: _, [] => false
  | a :: as, b :: bs => a == b && charsLeading as bs

/-- Does `h` contain `n` as a contiguous segment?  (Python `in` on two
strings.) -/
def charsContain (n : List Char) : List Char → Bool
  | [] => n.isEmpty
  | c :: rest => charsLeading n (c :: rest) || charsContain n rest

/-- `'data' in request_data` (app.py line 73): key membership for a dict,
element membership for a list, substring for a string; a `TypeError` (whose
message the enclosing handler surfaces) for the non-container values. -/
def containsData : PyVal → Except String Bool
  | PyVal.dict fs => Except.ok (fs.any (fun kv => kv.1 == "data"))
  | PyVal.list xs =>
    Except.ok (xs.any (fun v => match v with | PyVal.str s => s == "data" | _ => false))
  | PyVal.str s => Except.ok (charsContain "data".data s.data)
  | PyVal.int _ => Except.error "argument of type 'int' is not iterable"
  | PyVal.bool _ => Except.error "argument of type 'bool' is not iterable"
  | PyVal.pynone => Except.error "argument of type 'NoneType' is not iterable"

/-- `request_data['data']` (app.py line 79): dict lookup when the key is
there (the code only subscripts after the membership test succeeded), a
`TypeError`/`KeyError` message otherwise. -/
def getItemData : PyVal → Except String PyVal
  | PyVal.dict fs =>
    match fs.find? (fun kv => kv.1 == "data") with
    | some kv => Except.ok kv.2
    | Option.none => Except.error "'data'"
  | PyVal.list _ => Except.error "list indices must be integers or slices, not str"
  | PyVal.str _ => Except.error "string indices must be integers"
  | PyVal.int _ => Except.error "'int' object is not subscriptable"
  | PyVal.bool _ => Except.error "'bool' object is not subscriptable"
  | PyVal.pynone => Except.error "'NoneType' object is not subscriptable"

/-- What the `/bfhl` POST handler replies (app.py lines 64-108): an
`is_success: false` error body with its HTTP status, or the success body
with the static identity fields, the processed record and status 200. -/
inductive BfhlOutcome where
  | failure (error : String) (status : Nat) : BfhlOutcome
  | success (user_id email roll_number : String) (result : BfhlResult) (status : Nat) :
      BfhlOutcome
deriving Repr, DecidableEq

/-- The `/bfhl` POST handler of app.py lines 64-108, parameterised over the
classification routine `proc` so that its (non-)invocation is expressible.
`body` is what `request.get_json()` yields: the parsed value, or the
`str()` of the exception it raised (which the blanket `except` turns into a
500 failure body).  The handler returns 400 failures for a falsy body or a
body without `'data'` and for a non-list `data`, wraps any exception text
as a 500 failure, and otherwise returns the 200 success body. -/
def bfhl (proc : List PyVal → Except String BfhlResult) (current_date : String)
    (body : Except String PyVal) : BfhlOutcome :=
  match body with
  | Except.error e => BfhlOutcome.failure e 500
  | Except.ok request_data =>
    if pyFalsy request_data then
      BfhlOutcome.failure "Missing 'data' field in request" 400
    else
      match containsData request_data with
      | Except.error e => BfhlOutcome.failure e 500
      | Except.ok false => BfhlOutcome.failure "Missing 'data' field in request" 400
      | Except.ok true =>
        match getItemData request_data with
        | Except.error e => BfhlOutcome.failure e 500
        | Except.ok data_array =>
          match data_array with
          | PyVal.list items =>
            match proc items with
            | Except.error e => BfhlOutcome.failure e 500
            | Except.ok r =>
              BfhlOutcome.success ("john_doe_" ++ current_date) "john@xyz.com" "ABCD123" r 200
          | _ => BfhlOutcome.failure "'data' must be an array" 400

/-- The `/bfhl` handler with its actual classification routine plugged in. -/
def bfhlEndpoint (current_date : String) (body : Except String PyVal) : BfhlOutcome :=
  bfhl process_array_py current_date body

/-- The requests on which the handler reaches the classification call
(app.py line 88): a parsed, truthy body containing `'data'` whose `'data'`
subscript is a list — then the list's items. -/
def validRequest (body : Except String PyVal) : Option (List PyVal) :=
  match body with
  | Except.error _ => Option.none
  | Except.ok request_data =>
    if pyFalsy request_data then Option.none
    else
      match containsData request_data with
      | Except.error _ => Option.none
      | Except.ok false => Option.none
      | Except.ok true =>
        match getItemData request_data with
        | Except.error _ => Option.none
        | Except.ok (PyVal.list items) => some items
        | Except.ok _ => Option.none

/-- What a token contributes to `odd_numbers`: its truncated integer value
rendered in decimal, when the numeric check accepts it, its conversion
succeeds and the value is odd. -/
def oddSel (t : String) : Option String :=
  if numericCheck t then
    match pyIntFloat t with
    | some n => if n % 2 == 0 then Option.none else some (toString n)
    | Option.none => Option.none
  else Option.none

/-- What a token contributes to `even_numbers` (see `oddSel`). -/
def evenSel (t : String) : Option String :=
  if numericCheck t then
    match pyIntFloat t with
    | some n => if n % 2 == 0 then some (toString n) else Option.none
    | Option.none => Option.none
  else Option.none

/-- What a token contributes to `alphabets`: its uppercased form, when the
numeric check rejects it and the letters-only regex accepts it. -/
def alphSel (t : String) : Option String :=
  if !numericCheck t && alphaMatch t then some (strUpper t) else Option.none

/-- What a token contributes to `special_characters`: itself, unchanged,
when both earlier rules reject it. -/
def specialSel (t : String) : Option String :=
  if !numericCheck t && !alphaMatch t then some t else Option.none

/-- What a token contributes to the retained original-case alphabetic
strings (see `alphSel`). -/
def alphOrigSel (t : String) : Option String :=
  if !numericCheck t && alphaMatch t then some t else Option.none

/-- What a token contributes to the running sum: its truncated integer
value when the numeric check accepts it and the conversion succeeds. -/
def numValSel (t : String) : Option Int :=
  if numericCheck t then pyIntFloat t else Option.none

/-- The truncated integer values of the tokens the numeric check accepts,
in input order. -/
def numVals (ts : List String) : List Int :=
  ts.filterMap numValSel

/-- Sum of a list of integers. -/
def sumInts : List Int → Int
  | [] => 0
  | x :: xs => x + sumInts xs

/-- Modelled from the spec's words (claim C2's characterization of the
numeric check, for comparison with `numericCheck` as translated from the
code): strip a single optional leading `'-'`, remove every `'.'`, and
accept when the remainder consists only of digits. -/
def claimNumericCheck (s : String) : Bool :=
  let cs :=
    match s.data with
    | '-' :: rest => rest
    | cs => cs
  pyIsDigit (String.mk (cs.filter (fun c => !(c == '.'))))

theorem filterMap_cons_toList {α β : Type} (f : α → Option β) (a : α) (l : List α) :
    (a :: l).filterMap f = (f a).toList ++ l.filterMap f := by
  cases h : f a <;> simp [List.filterMap_cons, h]

theorem sumInts_append (l₁ l₂ : List Int) :
    sumInts (l₁ ++ l₂) = sumInts l₁ + sumInts l₂ := by
  induction l₁ with
  | nil => simp [sumInts]
  | cons x xs ih => simp [sumInts, ih]; ring

theorem processItem_ok (st st1 : LoopState) (t : String)
    (h : processItem st t = Except.ok st1) :
    st1.odd_numbers = st.odd_numbers ++ (oddSel t).toList ∧
    st1.even_numbers = st.even_numbers ++ (evenSel t).toList ∧
    st1.alphabets = st.alphabets ++ (alphSel t).toList ∧
    st1.special_characters = st.special_characters ++ (specialSel t).toList ∧
    st1.alphabet_strings = st.alphabet_strings ++ (alphOrigSel t).toList ∧
    st1.numbers_sum = st.numbers_sum + sumInts (numValSel t).toList ∧
    (numericCheck t = true → (pyIntFloat t).isSome = true) := by
  by_cases hn : numericCheck t
  · cases hp : pyIntFloat t with
    | none => simp [processItem, hn, hp] at h
    | some n =>
      by_cases he : n % 2 == 0
      · simp [processItem, hn, hp, he] at h
        subst h
        simp [oddSel, evenSel, alphSel, specialSel, alphOrigSel, numValSel, sumInts, hn, hp, he]
      · simp [processItem, hn, hp, he] at h
        subst h
        simp [oddSel, evenSel, alphSel, specialSel, alphOrigSel, numValSel, sumInts, hn, hp, he]
  · by_cases ha : alphaMatch t
    · simp [processItem, hn, ha] at h
      subst h
      simp [oddSel, evenSel, alphSel, specialSel, alphOrigSel, numValSel, sumInts, hn, ha]
    · simp [processItem, hn, ha] at h
      subst h
      simp [oddSel, evenSel, alphSel, specialSel, alphOrigSel, numValSel, sumInts, hn, ha]

theorem runLoop_ok (ts : List String) : ∀ st st' : LoopState,
    runLoop st ts = Except.ok st' →
    st'.odd_numbers = st.odd_numbers ++ ts.filterMap oddSel ∧
    st'.even_numbers = st.even_numbers ++ ts.filterMap evenSel ∧
    st'.alphabets = st.alphabets ++ ts.filterMap alphSel ∧
    st'.special_characters = st.special_characters ++ ts.filterMap specialSel ∧
    st'.alphabet_strings = st.alphabet_strings ++ ts.filterMap alphOrigSel ∧
    st'.numbers_sum = st.numbers_sum + sumInts (numVals ts) ∧
    (∀ t ∈ ts, numericCheck t = true → (pyIntFloat t).isSome = true) := by
  induction ts with
  | nil =>
    intro st st' h
    simp [runLoop] at h
    subst h
    simp [numVals, sumInts]
  | cons t rest ih =>
    intro st st' h
    cases hp : processItem st t with
    | error e => simp [runLoop, hp] at h
    | ok st1 =>
      simp only [runLoop, hp] at h
      obtain ⟨o, e2, a, s, as, ns, hall⟩ := ih st1 st' h
      obtain ⟨po, pe, pa, ps, pas, pns, pnum⟩ := processItem_ok st st1 t hp
      have hnv : numVals (t :: rest) = (numValSel t).toList ++ numVals rest :=
        filterMap_cons_toList _ _ _
      refine ⟨?_, ?_, ?_, ?_, ?_, ?_, ?_⟩
      · rw [o, po, filterMap_cons_toList, List.append_assoc]
      · rw [e2, pe, filterMap_cons_toList, List.append_assoc]
      · rw [a, pa, filterMap_cons_toList, List.append_assoc]
      · rw [s, ps, filterMap_cons_toList, List.append_assoc]
      · rw [as, pas, filterMap_cons_toList, List.append_assoc]
      · rw [ns, pns, hnv, sumInts_append]; ring
      · intro x hx
        rcases List.mem_cons.mp hx with rfl | hx
        · exact pnum
        · exact hall x hx

theorem process_array_ok (ts : List String) (r : BfhlResult)
    (h : process_array ts = Except.ok r) :
    ∃ st, runLoop initState ts = Except.ok st ∧
      r = ⟨st.odd_numbers, st.even_numbers, st.alphabets, st.special_characters,
           toString st.numbers_sum, buildConcat st.alphabet_strings⟩ := by
  cases hl : runLoop initState ts with
  | error e => simp [process_array, hl] at h
  | ok st =>
    simp only [process_array, hl] at h
    cases h
    exact ⟨st, rfl, rfl⟩

theorem process_array_buckets (ts : List String) (r : BfhlResult)
    (h : process_array ts = Except.ok r) :
    r.odd_numbers = ts.filterMap oddSel ∧
    r.even_numbers = ts.filterMap evenSel ∧
    r.alphabets = ts.filterMap alphSel ∧
    r.special_characters = ts.filterMap specialSel ∧
    r.sum = toString (sumInts (numVals ts)) ∧
    r.concat_string = buildConcat (ts.filterMap alphOrigSel) ∧
    (∀ t ∈ ts, numericCheck t = true → (pyIntFloat t).isSome = true) := by
  obtain ⟨st, hst, hr⟩ := process_array_ok ts r h
  obtain ⟨o, e2, a, s, as, ns, hall⟩ := runLoop_ok ts initState st hst
  subst hr
  simp only [initState] at o e2 a s as ns
  simp only [List.nil_append] at o e2 a s as
  rw [Int.zero_add] at ns
  exact ⟨o, e2, a, s, by rw [ns], by rw [as], hall⟩

theorem sel_count (t : String)
    (h : numericCheck t = true → (pyIntFloat t).isSome = true) :
    (oddSel t).toList.length + (evenSel t).toList.length +
      (alphSel t).toList.length + (specialSel t).toList.length = 1 := by
  by_cases hn : numericCheck t
  · obtain ⟨n, hp⟩ := Option.isSome_iff_exists.mp (h hn)
    by_cases he : n % 2 == 0 <;>
      simp [oddSel, evenSel, alphSel, specialSel, hn, hp, he]
  · by_cases ha : alphaMatch t <;>
      simp [oddSel, evenSel, alphSel, specialSel, hn, ha]

theorem sel_counts_list (ts : List String)
    (h : ∀ t ∈ ts, numericCheck t = true → (pyIntFloat t).isSome = true) :
    (ts.filterMap oddSel).length + (ts.filterMap evenSel).length +
      (ts.filterMap alphSel).length + (ts.filterMap specialSel).length = ts.length := by
  induction ts with
  | nil => simp
  | cons t rest ih =>
    have ht := sel_count t (h t (List.mem_cons_self t rest))
    have hrest := ih (fun x hx => h x (List.mem_cons_of_mem t hx))
    simp only [filterMap_cons_toList, List.length_append, List.length_cons]
    omega

theorem alternatingCaps_length (k : Nat) (cs : List Char) :
    (alternatingCaps k cs).length = cs.length := by
  induction cs generalizing k with
  | nil => rfl
  | cons c cs ih => simp [alternatingCaps, ih]

theorem alternatingCaps_getD (cs : List Char) (k i : Nat) (d : Char)
    (h : i < cs.length) :
    (alternatingCaps k cs).getD i d =
      if (k + i) % 2 = 0 then (cs.getD i d).toUpper else (cs.getD i d).toLower := by
  induction cs generalizing k i with
  | nil => simp at h
  | cons c cs ih =>
    cases i with
    | zero =>
      simp only [alternatingCaps, List.getD_cons_zero, Nat.add_zero]
      by_cases hk : k % 2 = 0 <;> simp [hk]
    | succ i =>
      simp only [alternatingCaps, List.getD_cons_succ]
      rw [ih (k + 1) i (by simp only [List.length_cons] at h; omega)]
      have : k + 1 + i = k + (i + 1) := by omega
      rw [this]

/-- Claim C1: for every input list on which `process_array` returns a record,
each token is placed by the first matching rule, in input order, into exactly
one of the four buckets: `odd_numbers`/`even_numbers` hold the truncated
integer decimal strings of the numeric tokens, `alphabets` the uppercased
alphabetic tokens, `special_characters` the remaining tokens unchanged, each
bucket in input order, and the four bucket lengths add up to the input
length. -/
theorem c1_first_rule_partition (ts : List String) (r : BfhlResult)
    (h : process_array ts = Except.ok r) :
    r.odd_numbers = ts.filterMap oddSel ∧
    r.even_numbers = ts.filterMap evenSel ∧
    r.alphabets = ts.filterMap alphSel ∧
    r.special_characters = ts.filterMap specialSel ∧
    r.odd_numbers.length + r.even_numbers.length + r.alphabets.length +
      r.special_characters.length = ts.length := by
  obtain ⟨ho, he, ha, hs, _, _, hall⟩ := process_array_buckets ts r h
  exact ⟨ho, he, ha, hs, by rw [ho, he, ha, hs]; exact sel_counts_list ts hall⟩

/-- Witness for C1 at the input `["a", "1", "$"]`. -/
theorem c1_first_rule_partition_witness :
    (⟨["1"], [], ["A"], ["$"], "1", "A"⟩ : BfhlResult).odd_numbers =
        ["a", "1", "$"].filterMap oddSel ∧
    (⟨["1"], [], ["A"], ["$"], "1", "A"⟩ : BfhlResult).even_numbers =
        ["a", "1", "$"].filterMap evenSel ∧
    (⟨["1"], [], ["A"], ["$"], "1", "A"⟩ : BfhlResult).alphabets =
        ["a", "1", "$"].filterMap alphSel ∧
    (⟨["1"], [], ["A"], ["$"], "1", "A"⟩ : BfhlResult).special_characters =
        ["a", "1", "$"].filterMap specialSel ∧
    (⟨["1"], [], ["A"], ["$"], "1", "A"⟩ : BfhlResult).odd_numbers.length +
      (⟨["1"], [], ["A"], ["$"], "1", "A"⟩ : BfhlResult).even_numbers.length +
      (⟨["1"], [], ["A"], ["$"], "1", "A"⟩ : BfhlResult).alphabets.length +
      (⟨["1"], [], ["A"], ["$"], "1", "A"⟩ : BfhlResult).special_characters.length =
      (["a", "1", "$"] : List String).length :=
  c1_first_rule_partition ["a", "1", "$"] ⟨["1"], [], ["A"], ["$"], "1", "A"⟩ rfl

/-- Claim C3: on the input `["a","1","334","4","R","$"]`, `process_array`
returns odd_numbers `["1"]`, even_numbers `["334","4"]`, alphabets
`["A","R"]`, special_characters `["$"]`, sum `"339"` and concat_string
`"Ra"`. -/
theorem c3_scenario_basic :
    process_array ["a", "1", "334", "4", "R", "$"] =
      Except.ok ⟨["1"], ["334", "4"], ["A", "R"], ["$"], "339", "Ra"⟩ := rfl

/-- Claim C4: whenever `process_array` returns a record, `concat_string`
has one character per character of the joined original-case alphabetic
tokens (taken in input order), its character at index `i` is the character
at index `i` of the reversed join, uppercased at even indices and
lowercased at odd indices; with no alphabetic token it is the empty
string. -/
theorem c4_concat_reverse_altcaps (ts : List String) (r : BfhlResult)
    (h : process_array ts = Except.ok r) :
    r.concat_string.data.length = (strJoin (ts.filterMap alphOrigSel)).data.length ∧
    (∀ i, i < r.concat_string.data.length →
      r.concat_string.data.getD i ' ' =
        (if i % 2 = 0 then Char.toUpper else Char.toLower)
          ((strJoin (ts.filterMap alphOrigSel)).data.reverse.getD i ' ')) ∧
    (ts.filterMap alphOrigSel = [] → r.concat_string = "") := by
  obtain ⟨_, _, _, _, _, hc, _⟩ := process_array_buckets ts r h
  rw [hc]
  by_cases hempty : (ts.filterMap alphOrigSel).isEmpty
  · have hnil : ts.filterMap alphOrigSel = [] := by
      simpa [List.isEmpty_iff] using hempty
    rw [hnil]
    exact ⟨rfl, by intro i hi; simp [buildConcat] at hi, fun _ => rfl⟩
  · have hbc : buildConcat (ts.filterMap alphOrigSel) =
        String.mk (alternatingCaps 0 (strJoin (ts.filterMap alphOrigSel)).data.reverse) := by
      simp [buildConcat, hempty]
    rw [hbc]
    refine ⟨?_, ?_, ?_⟩
    · show (alternatingCaps 0 (strJoin (ts.filterMap alphOrigSel)).data.reverse).length =
        (strJoin (ts.filterMap alphOrigSel)).data.length
      rw [alternatingCaps_length, List.length_reverse]
    · intro i hi
      have hi' : i < (alternatingCaps 0
          (strJoin (ts.filterMap alphOrigSel)).data.reverse).length := hi
      have hlen : i < (strJoin (ts.filterMap alphOrigSel)).data.reverse.length := by
        rw [alternatingCaps_length] at hi'
        exact hi'
      show (alternatingCaps 0 (strJoin (ts.filterMap alphOrigSel)).data.reverse).getD i ' ' = _
      rw [alternatingCaps_getD _ 0 i ' ' hlen]
      simp only [Nat.zero_add, ite_apply]
    · intro hnil
      rw [hnil] at hempty
      exact absurd rfl hempty

/-- Witness for C4 at the input `["a", "R"]`. -/
theorem c4_concat_reverse_altcaps_witness :
    (⟨[], [], ["A", "R"], [], "0", "Ra"⟩ : BfhlResult).concat_string.data.length =
        (strJoin (["a", "R"].filterMap alphOrigSel)).data.length ∧
    (∀ i, i < (⟨[], [], ["A", "R"], [], "0", "Ra"⟩ : BfhlResult).concat_string.data.length →
      (⟨[], [], ["A", "R"], [], "0", "Ra"⟩ : BfhlResult).concat_string.data.getD i ' ' =
        (if i % 2 = 0 then Char.toUpper else Char.toLower)
          ((strJoin (["a", "R"].filterMap alphOrigSel)).data.reverse.getD i ' ')) ∧
    (["a", "R"].filterMap alphOrigSel = [] →
      (⟨[], [], ["A", "R"], [], "0", "Ra"⟩ : BfhlResult).concat_string = "") :=
  c4_concat_reverse_altcaps ["a", "R"] ⟨[], [], ["A", "R"], [], "0", "Ra"⟩ rfl

/-- Claim C5: whenever `process_array` returns a record, its `sum` field is
the decimal string of the integer sum of the truncated `float` values of
the tokens the numeric check accepted (every such token's conversion having
succeeded), and on the empty input the returned record has all four buckets
empty, sum `"0"` and concat_string `""`. -/
theorem c5_sum_and_empty (ts : List String) (r : BfhlResult)
    (h : process_array ts = Except.ok r) :
    r.sum = toString (sumInts (numVals ts)) ∧
    (∀ t ∈ ts, numericCheck t = true → (pyIntFloat t).isSome = true) ∧
    (ts = [] → r = ⟨[], [], [], [], "0", ""⟩) := by
  obtain ⟨_, _, _, _, hs, _, hall⟩ := process_array_buckets ts r h
  refine ⟨hs, hall, ?_⟩
  rintro rfl
  have h0 : process_array ([] : List String) =
      Except.ok (⟨[], [], [], [], "0", ""⟩ : BfhlResult) := rfl
  rw [h0] at h
  cases h
  rfl

/-- Witness for C5 at the input `["3", "2"]`. -/
theorem c5_sum_and_empty_witness :
    (⟨["3"], ["2"], [], [], "5", ""⟩ : BfhlResult).sum =
        toString (sumInts (numVals ["3", "2"])) ∧
    (∀ t ∈ (["3", "2"] : List String), numericCheck t = true →
      (pyIntFloat t).isSome = true) ∧
    ((["3", "2"] : List String) = [] →
      (⟨["3"], ["2"], [], [], "5", ""⟩ : BfhlResult) = ⟨[], [], [], [], "0", ""⟩) :=
  c5_sum_and_empty ["3", "2"] ⟨["3"], ["2"], [], [], "5", ""⟩ rfl

/-- Claim C6: negative numeric tokens are bucketed by the parity of their
truncated integer value — any numeric token whose truncated value is odd
lands (rendered in decimal) in `odd_numbers` and any whose value is even in
`even_numbers` — and on `["-1","2","a","B","&"]` the code returns
odd_numbers `["-1"]`, even_numbers `["2"]`, alphabets `["A","B"]`,
special_characters `["&"]` and sum `"1"`. -/
theorem c6_negative_parity :
    process_array ["-1", "2", "a", "B", "&"] =
      Except.ok ⟨["-1"], ["2"], ["A", "B"], ["&"], "1", "Ba"⟩ ∧
    pyIntFloat "-1" = some (-1) ∧ ((-1 : Int) % 2 == 0) = false ∧
    (∀ (ts : List String) (r : BfhlResult) (t : String) (n : Int),
      process_array ts = Except.ok r → t ∈ ts → numericCheck t = true →
      pyIntFloat t = some n →
        (¬n % 2 = 0 → toString n ∈ r.odd_numbers) ∧
        (n % 2 = 0 → toString n ∈ r.even_numbers)) := by
  refine ⟨rfl, rfl, rfl, ?_⟩
  intro ts r t n h ht hn hp
  obtain ⟨ho, he, _, _, _, _, _⟩ := process_array_buckets ts r h
  constructor
  · intro hodd
    rw [ho]
    refine List.mem_filterMap.mpr ⟨t, ht, ?_⟩
    simp [oddSel, hn, hp, hodd]
  · intro heven
    rw [he]
    refine List.mem_filterMap.mpr ⟨t, ht, ?_⟩
    simp [evenSel, hn, hp, heven]

/-- Claim C7: each of the tokens `"-"`, `"."` and `""` fails the numeric
check and the letters-only regex, is appended to `special_characters`
unchanged by its loop iteration while every other state component is left
alone, and the full run on `["-", ".", ""]` puts all three in
`special_characters` with sum `"0"` and empty concat_string. -/
theorem c7_dash_dot_empty_special :
    (∀ t ∈ (["-", ".", ""] : List String),
      numericCheck t = false ∧ alphaMatch t = false ∧
      ∀ st : LoopState, processItem st t =
        Except.ok { st with special_characters := st.special_characters ++ [t] }) ∧
    process_array ["-", ".", ""] =
      Except.ok ⟨[], [], [], ["-", ".", ""], "0", ""⟩ := by
  refine ⟨?_, rfl⟩
  intro t ht
  rcases List.mem_cons.mp ht with rfl | ht
  · exact ⟨rfl, rfl, fun st => rfl⟩
  rcases List.mem_cons.mp ht with rfl | ht
  · exact ⟨rfl, rfl, fun st => rfl⟩
  rcases List.mem_cons.mp ht with rfl | ht
  · exact ⟨rfl, rfl, fun st => rfl⟩
  exact absurd ht (List.not_mem_nil t)

/-- Claim C9: there is an input list all of whose elements pass the
numeric-detection check on which `process_array` returns no record at all:
on `["--1"]` (and `["1.2.3"]`) the float conversion fails and the whole
call fails with the wrapped `Error processing array: ...` message, with no
partial output. -/
theorem c9_check_passes_float_raises :
    numericCheck "--1" = true ∧ numericCheck "1.2.3" = true ∧
    process_array ["--1"] =
      Except.error "Error processing array: could not convert string to float: '--1'" ∧
    process_array ["1.2.3"] =
      Except.error "Error processing array: could not convert string to float: '1.2.3'" :=
  ⟨rfl, rfl, rfl, rfl⟩

/-- Claim C10: a boolean input element is stringified by `str()` to
`"True"`/`"False"`, which fails the numeric check and matches the
letters-only rule for either boolean, so `True` is appended to `alphabets`
as `"TRUE"`, its original-case form `"True"` is what the concatenation step
retains, and booleans never reach the numeric buckets or the sum (shown on
`[True, "2"]`, whose sum is `"2"`). -/
theorem c10_boolean_tokens :
    pyStr (PyVal.bool true) = "True" ∧ pyStr (PyVal.bool false) = "False" ∧
    (∀ b : Bool, numericCheck (pyStr (PyVal.bool b)) = false ∧
      alphaMatch (pyStr (PyVal.bool b)) = true) ∧
    alphOrigSel "True" = some "True" ∧
    process_array_py [PyVal.bool true, PyVal.str "2"] =
      Except.ok ⟨[], ["2"], ["TRUE"], [], "2", "EuRt"⟩ := by
  refine ⟨rfl, rfl, ?_, rfl, rfl⟩
  intro b
  cases b
  · exact ⟨rfl, rfl⟩
  · exact ⟨rfl, rfl⟩

theorem digit_not_dash_dot (c : Char) (h : c.isDigit = true) :
    (!(c == '-' || c == '.')) = true := by
  have h1 : c ≠ '-' := by rintro rfl; exact absurd h (by decide)
  have h2 : c ≠ '.' := by rintro rfl; exact absurd h (by decide)
  simp [h1, h2]

theorem filter_digit_check (cs : List Char) :
    ((cs.filter (fun c => !(c == '-' || c == '.'))).isEmpty = false ∧
      (cs.filter (fun c => !(c == '-' || c == '.'))).all Char.isDigit = true) ↔
      ((∃ c ∈ cs, c.isDigit = true) ∧
        ∀ c ∈ cs, c.isDigit = true ∨ c = '-' ∨ c = '.') := by
  constructor
  · rintro ⟨hne, hall⟩
    rw [List.all_eq_true] at hall
    have hnil : cs.filter (fun c => !(c == '-' || c == '.')) ≠ [] := by
      intro hx
      rw [hx] at hne
      exact absurd hne (by simp)
    obtain ⟨c, hc⟩ := List.exists_mem_of_ne_nil _ hnil
    obtain ⟨hcs, hkeep⟩ := List.mem_filter.mp hc
    refine ⟨⟨c, hcs, hall c hc⟩, ?_⟩
    intro x hx
    by_cases hk : (!(x == '-' || x == '.')) = true
    · exact Or.inl (hall x (List.mem_filter.mpr ⟨hx, hk⟩))
    · simp only [Bool.not_eq_true, Bool.not_eq_false', Bool.or_eq_true, beq_iff_eq] at hk
      exact Or.inr hk
  · rintro ⟨⟨c, hc, hd⟩, hall⟩
    have hcmem : c ∈ cs.filter (fun c => !(c == '-' || c == '.')) :=
      List.mem_filter.mpr ⟨hc, digit_not_dash_dot c hd⟩
    constructor
    · have hnil : cs.filter (fun c => !(c == '-' || c == '.')) ≠ [] := by
        intro hx
        rw [hx] at hcmem
        exact absurd hcmem (List.not_mem_nil c)
      rw [← Bool.not_eq_true, List.isEmpty_iff]
      exact hnil
    · rw [List.all_eq_true]
      intro x hx
      obtain ⟨hxs, hk⟩ := List.mem_filter.mp hx
      rcases hall x hxs with hdig | hdd
      · exact hdig
      · exfalso
        rcases hdd with rfl | rfl <;> simp at hk

theorem numericCheck_iff (s : String) :
    numericCheck s = true ↔
      ((∃ c ∈ s.data, c.isDigit = true) ∧
        ∀ c ∈ s.data, c.isDigit = true ∨ c = '-' ∨ c = '.') := by
  have hdef : numericCheck s =
      (!(s.data.filter (fun c => !(c == '-' || c == '.'))).isEmpty &&
        (s.data.filter (fun c => !(c == '-' || c == '.'))).all Char.isDigit) := rfl
  rw [hdef, Bool.and_eq_true, Bool.not_eq_true']
  exact filter_digit_check s.data

/-- Counterexample to claim C2 as stated: the claimed characterization
(strip a single optional leading `'-'` and any `'.'`, then digits-only)
rejects `"--1"` while the code's check accepts it, and `"--1"` does not end
up in any numeric bucket — the call returns no record at all because the
float conversion raises. -/
theorem c2_counterexample :
    claimNumericCheck "--1" = false ∧ numericCheck "--1" = true ∧
    process_array ["--1"] =
      Except.error "Error processing array: could not convert string to float: '--1'" :=
  ⟨rfl, rfl, rfl⟩

/-- Claim C2 as amended: a token is classified as numeric exactly when it
contains at least one digit and every character is a digit, `'-'` or `'.'`
(the check removes every `'-'`, not only a single leading one); the
malformed tokens `"--1"` and `"1.2.3"` are accepted by this check, so
they are not routed to `special_characters`, but their float conversion
then raises and the whole call fails instead of placing them in a numeric
bucket. -/
theorem c2_numeric_acceptance_boundary :
    (∀ s : String, numericCheck s = true ↔
      ((∃ c ∈ s.data, c.isDigit = true) ∧
        ∀ c ∈ s.data, c.isDigit = true ∨ c = '-' ∨ c = '.')) ∧
    numericCheck "--1" = true ∧ numericCheck "1.2.3" = true ∧
    specialSel "--1" = Option.none ∧ specialSel "1.2.3" = Option.none ∧
    process_array ["--1"] =
      Except.error "Error processing array: could not convert string to float: '--1'" ∧
    process_array ["1.2.3"] =
      Except.error "Error processing array: could not convert string to float: '1.2.3'" :=
  ⟨numericCheck_iff, rfl, rfl, rfl, rfl, rfl, rfl⟩

theorem bfhl_invalid (d : String) (body : Except String PyVal)
    (h : validRequest body = Option.none) :
    ∃ msg code, ∀ proc, bfhl proc d body = BfhlOutcome.failure msg code := by
  cases body with
  | error e => exact ⟨e, 500, fun _ => rfl⟩
  | ok v =>
    by_cases hf : pyFalsy v
    · exact ⟨"Missing 'data' field in request", 400, fun proc => by simp [bfhl, hf]⟩
    · cases hc : containsData v with
      | error e => exact ⟨e, 500, fun proc => by simp [bfhl, hf, hc]⟩
      | ok b =>
        cases b with
        | false =>
          exact ⟨"Missing 'data' field in request", 400, fun proc => by simp [bfhl, hf, hc]⟩
        | true =>
          cases hg : getItemData v with
          | error e => exact ⟨e, 500, fun proc => by simp [bfhl, hf, hc, hg]⟩
          | ok dv =>
            cases dv with
            | list items =>
              exfalso
              simp [validRequest, hf, hc, hg] at h
            | pynone =>
              exact ⟨"'data' must be an array", 400, fun proc => by simp [bfhl, hf, hc, hg]⟩
            | bool b =>
              exact ⟨"'data' must be an array", 400, fun proc => by simp [bfhl, hf, hc, hg]⟩
            | int n =>
              exact ⟨"'data' must be an array", 400, fun proc => by simp [bfhl, hf, hc, hg]⟩
            | str s =>
              exact ⟨"'data' must be an array", 400, fun proc => by simp [bfhl, hf, hc, hg]⟩
            | dict fs =>
              exact ⟨"'data' must be an array", 400, fun proc => by simp [bfhl, hf, hc, hg]⟩

theorem bfhl_valid (proc : List PyVal → Except String BfhlResult) (d : String)
    (body : Except String PyVal) (items : List PyVal)
    (h : validRequest body = some items) :
    bfhl proc d body =
      match proc items with
      | Except.error e => BfhlOutcome.failure e 500
      | Except.ok r =>
        BfhlOutcome.success ("john_doe_" ++ d) "john@xyz.com" "ABCD123" r 200 := by
  cases body with
  | error e => simp [validRequest] at h
  | ok v =>
    by_cases hf : pyFalsy v
    · simp [validRequest, hf] at h
    · cases hc : containsData v with
      | error e => simp [validRequest, hf, hc] at h
      | ok b =>
        cases b with
        | false => simp [validRequest, hf, hc] at h
        | true =>
          cases hg : getItemData v with
          | error e => simp [validRequest, hf, hc, hg] at h
          | ok dv =>
            cases dv with
            | list its =>
              simp only [validRequest, hf, hc, hg] at h
              simp at h
              subst h
              simp [bfhl, hf, hc, hg]
            | pynone => simp [validRequest, hf, hc, hg] at h
            | bool b => simp [validRequest, hf, hc, hg] at h
            | int n => simp [validRequest, hf, hc, hg] at h
            | str s => simp [validRequest, hf, hc, hg] at h
            | dict fs => simp [validRequest, hf, hc, hg] at h

/-- Claim C8: when the request body failed to parse, is falsy or lacks
`'data'`, or its `'data'` subscript is not a list, the handler replies with
a failure body (`is_success: false` with an error string) and the
classification routine is never invoked — the reply is the same whatever
routine is plugged in, in particular for the real endpoint; and an error
raised by the classification of a valid request surfaces as a single 500
failure reply carrying the wrapped message. -/
theorem c8_error_boundary :
    (∀ (proc proc' : List PyVal → Except String BfhlResult) (d : String)
        (body : Except String PyVal),
      validRequest body = Option.none →
        bfhl proc d body = bfhl proc' d body ∧
        ∃ msg code, bfhl proc d body = BfhlOutcome.failure msg code) ∧
    (∀ (proc : List PyVal → Except String BfhlResult) (d : String)
        (body : Except String PyVal) (items : List PyVal) (e : String),
      validRequest body = some items → proc items = Except.error e →
        bfhl proc d body = BfhlOutcome.failure e 500) ∧
    (∀ (d : String) (body : Except String PyVal),
      validRequest body = Option.none →
        ∃ msg code, bfhlEndpoint d body = BfhlOutcome.failure msg code) := by
  refine ⟨?_, ?_, ?_⟩
  · intro proc proc' d body h
    obtain ⟨msg, code, hall⟩ := bfhl_invalid d body h
    exact ⟨(hall proc).trans (hall proc').symm, msg, code, hall proc⟩
  · intro proc d body items e hv hp
    rw [bfhl_valid proc d body items hv, hp]
  · intro d body h
    obtain ⟨msg, code, hall⟩ := bfhl_invalid d body h
    exact ⟨msg, code, hall _⟩
